import Mathlib

/-!
Verification of the mDNS wire decoder, resolution cache, service-resolver loop
and MQTT facade of the watering-system firmware (src/mdns.rs, src/mqtt.rs).

Bytes of a received datagram are modelled as `List Nat` (each element the value
of one `u8`).  Fallible Rust functions returning `Option` are modelled with the
`Res` type below, which additionally distinguishes an out-of-bounds slice index
(`panic`, which in Rust would abort) and exhaustion of the step budget of the
one loop in the source that has no structural termination argument
(`parse_dns_name`, whose compression-pointer chasing can revisit an offset).
-/

set_option autoImplicit false

/-- Result of a fallible decoding step.  `val` models `Some`, `nofind` models
`None`, `panic` models a Rust index-out-of-bounds panic, and `diverge` models
running out of loop-iteration budget. -/
inductive Res (α : Type) where
  | val : α → Res α
  | nofind : Res α
  | panic : Res α
  | diverge : Res α
deriving DecidableEq

/-- Sequencing of fallible decoding steps (`?` propagation in the source). -/
def Res.bind {α β : Type} : Res α → (α → Res β) → Res β
  | .val a, f => f a
  | .nofind, _ => .nofind
  | .panic, _ => .panic
  | .diverge, _ => .diverge

/-- A raw datagram: the byte values of the `&[u8]` slice handed to the decoder. -/
abbrev Bytes := List Nat

/-- An IPv4 address, the `[u8; 4]` of the source. -/
abbrev IpV4 := Nat × Nat × Nat × Nat

/-- Number of UTF-8 bytes taken by a `u8` value converted with `as char`
(`len_utf8` of the corresponding code point). -/
def charUtf8Len (c : Nat) : Nat := if c < 128 then 1 else 2

/-- Byte length of a `heapless::String` holding the given char codes. -/
def strBytes (s : List Nat) : Nat := (s.map charUtf8Len).sum

/-- `heapless::String<64>::push`: appends one char if the 64-byte capacity
allows it, errs otherwise. -/
def pushChar (s : List Nat) (c : Nat) : Option (List Nat) :=
  if strBytes s + charUtf8Len c ≤ 64 then some (s ++ [c]) else none

/-- The label-copy loop of `parse_dns_name` (src/mdns.rs:419-424): pushes the
`n` bytes starting at `start` into the bounded string, failing soft when the
string is full and panicking on an out-of-range index. -/
def pushLabelChars (data : Bytes) (start n : Nat) (s : List Nat) : Res (List Nat) :=
  match n with
  | 0 => .val s
  | m + 1 =>
    if h : start < data.length then
      match pushChar s (data.get ⟨start, h⟩) with
      | some s2 => pushLabelChars data (start + 1) m s2
      | none => .nofind
    else .panic

/-- The loop body of `skip_dns_name` (src/mdns.rs:296-315), with an explicit
iteration budget `k`.  The budget is an artifact of the embedding only: the
offset grows by at least two per iteration, so `data.length + 1` iterations
always suffice (`skip_go_budget_irrelevant` below). -/
def skip_go (data : Bytes) (k offset : Nat) : Res Nat :=
  match k with
  | 0 => .diverge
  | j + 1 =>
    if h : offset < data.length then
      if data.get ⟨offset, h⟩ = 0 then .val (offset + 1)
      else if data.get ⟨offset, h⟩ &&& 0xC0 = 0xC0 then .val (offset + 2)
      else skip_go data j (offset + 1 + data.get ⟨offset, h⟩)
    else .nofind

/-- `skip_dns_name` (src/mdns.rs:296-315): advance past a DNS name, treating a
compression pointer as two bytes. -/
def skip_dns_name (data : Bytes) (offset : Nat) : Res Nat :=
  skip_go data (data.length + 1) offset

/-- Any budget exceeding the remaining buffer length gives the same result:
the internal counter of `skip_go` never runs out. -/
theorem skip_go_budget_irrelevant (data : Bytes) :
    ∀ k k2 offset, data.length - offset < k → data.length - offset < k2 →
      skip_go data k offset = skip_go data k2 offset := by
  intro k
  induction k with
  | zero => intro k2 offset h1 _; omega
  | succ j ih =>
    intro k2 offset h1 h2
    match k2, h2 with
    | j2 + 1, h2 =>
      simp only [skip_go]
      split
      case isTrue h =>
        split
        case isTrue => rfl
        case isFalse hz =>
          split
          case isTrue => rfl
          case isFalse hc =>
            exact ih j2 (offset + 1 + data.get ⟨offset, h⟩) (by omega) (by omega)
      case isFalse => rfl

/-- The loop of `parse_dns_name` (src/mdns.rs:387-427).  `result` is the
accumulated char codes of the bounded output string and `first_label` tracks
whether a separating dot must be pushed.  `fuel` bounds the number of loop
iterations; a compression-pointer cycle in the input exhausts it. -/
def parse_dns_name_loop (data : Bytes) (fuel offset : Nat) (result : List Nat)
    (first_label : Bool) : Res (List Nat) :=
  match fuel with
  | 0 => .diverge
  | f + 1 =>
    if h : offset < data.length then
      if data.get ⟨offset, h⟩ = 0 then .val result
      else if data.get ⟨offset, h⟩ &&& 0xC0 = 0xC0 then
        if h2 : offset + 1 < data.length then
          parse_dns_name_loop data f
            (((data.get ⟨offset, h⟩ &&& 0x3F) <<< 8) ||| data.get ⟨offset + 1, h2⟩)
            result first_label
        else .nofind
      else
        match (if first_label then some result else pushChar result 46) with
        | none => .nofind
        | some r1 =>
          if data.length < offset + 1 + data.get ⟨offset, h⟩ then .nofind
          else
            match pushLabelChars data (offset + 1) (data.get ⟨offset, h⟩) r1 with
            | .val r2 => parse_dns_name_loop data f (offset + 1 + data.get ⟨offset, h⟩) r2 false
            | e => e
    else .nofind

/-- `parse_dns_name` (src/mdns.rs:383-434): expand a possibly compressed DNS
name into a bounded string of at most 64 bytes; an empty name yields `None`. -/
def parse_dns_name (data : Bytes) (offset fuel : Nat) : Res (List Nat) :=
  match parse_dns_name_loop data fuel offset [] true with
  | .val r => if r = [] then .nofind else .val r
  | e => e

/-- The question-skipping loop shared by `parse_srv_record` and
`parse_a_record` (src/mdns.rs:228-233): skip `count` question entries, each a
name followed by four bytes of QTYPE/QCLASS. -/
def skip_questions (data : Bytes) (count offset : Nat) : Res Nat :=
  match count with
  | 0 => .val offset
  | n + 1 =>
    match skip_dns_name data offset with
    | .val o => skip_questions data n (o + 4)
    | e => e

/-- `parse_srv_rdata` (src/mdns.rs:271-293): priority and weight are skipped,
the port is read big-endian at bytes 4-5 of the RDATA, and the target hostname
is parsed from byte 6 on.  RDLENGTH below 6 or past the buffer is rejected. -/
def parse_srv_rdata (data : Bytes) (offset rdlength fuel : Nat) : Res (List Nat × Nat) :=
  if h : rdlength < 6 ∨ data.length < offset + rdlength then .nofind
  else
    match parse_dns_name data (offset + 6) fuel with
    | .val hostname =>
      .val (hostname, 256 * data.get ⟨offset + 4, by omega⟩ + data.get ⟨offset + 5, by omega⟩)
    | .nofind => .nofind
    | .panic => .panic
    | .diverge => .diverge

/-- The answer-scanning loop of `parse_srv_record` (src/mdns.rs:237-265):
skip the record name, read TYPE and RDLENGTH, return the RDATA parse of the
first type-33 record, and skip any other record by its RDLENGTH. -/
def srv_answer_loop (data : Bytes) (count offset fuel : Nat) : Res (List Nat × Nat) :=
  match count with
  | 0 => .nofind
  | n + 1 =>
    match skip_dns_name data offset with
    | .val o =>
      if h : data.length < o + 10 then .nofind
      else
        if 256 * data.get ⟨o, by omega⟩ + data.get ⟨o + 1, by omega⟩ = 33 then
          parse_srv_rdata data (o + 10)
            (256 * data.get ⟨o + 8, by omega⟩ + data.get ⟨o + 9, by omega⟩) fuel
        else
          srv_answer_loop data n
            (o + 10 + (256 * data.get ⟨o + 8, by omega⟩ + data.get ⟨o + 9, by omega⟩)) fuel
    | .nofind => .nofind
    | .panic => .panic
    | .diverge => .diverge

/-- `parse_srv_record` (src/mdns.rs:218-268): reject packets shorter than the
12-byte header, skip the questions counted at header bytes 4-5, then scan the
answers counted at header bytes 6-7 for the first SRV record. -/
def parse_srv_record (data : Bytes) (fuel : Nat) : Res (List Nat × Nat) :=
  if h : data.length < 12 then .nofind
  else
    match skip_questions data (256 * data.get ⟨4, by omega⟩ + data.get ⟨5, by omega⟩) 12 with
    | .val off =>
      srv_answer_loop data (256 * data.get ⟨6, by omega⟩ + data.get ⟨7, by omega⟩) off fuel
    | .nofind => .nofind
    | .panic => .panic
    | .diverge => .diverge

/-- The answer-scanning loop of `parse_a_record` (src/mdns.rs:338-377): parse
the record name, read TYPE and RDLENGTH, return the hostname and the four
address bytes of the first type-1 record with RDLENGTH 4 that fits in the
buffer, and skip any other record by its RDLENGTH. -/
def a_answer_loop (data : Bytes) (count offset fuel : Nat) : Res (List Nat × IpV4) :=
  match count with
  | 0 => .nofind
  | n + 1 =>
    match parse_dns_name data offset fuel with
    | .val hostname =>
      match skip_dns_name data offset with
      | .val o =>
        if h : data.length < o + 10 then .nofind
        else
          if 256 * data.get ⟨o, by omega⟩ + data.get ⟨o + 1, by omega⟩ = 1 ∧
              256 * data.get ⟨o + 8, by omega⟩ + data.get ⟨o + 9, by omega⟩ = 4 then
            if h2 : o + 10 + 4 ≤ data.length then
              .val (hostname,
                (data.get ⟨o + 10, by omega⟩, data.get ⟨o + 11, by omega⟩,
                 data.get ⟨o + 12, by omega⟩, data.get ⟨o + 13, by omega⟩))
            else
              a_answer_loop data n
                (o + 10 + (256 * data.get ⟨o + 8, by omega⟩ + data.get ⟨o + 9, by omega⟩)) fuel
          else
            a_answer_loop data n
              (o + 10 + (256 * data.get ⟨o + 8, by omega⟩ + data.get ⟨o + 9, by omega⟩)) fuel
      | .nofind => .nofind
      | .panic => .panic
      | .diverge => .diverge
    | .nofind => .nofind
    | .panic => .panic
    | .diverge => .diverge

/-- `parse_a_record` (src/mdns.rs:319-380): same header and question handling
as `parse_srv_record`, then scan the answers for the first A record. -/
def parse_a_record (data : Bytes) (fuel : Nat) : Res (List Nat × IpV4) :=
  if h : data.length < 12 then .nofind
  else
    match skip_questions data (256 * data.get ⟨4, by omega⟩ + data.get ⟨5, by omega⟩) 12 with
    | .val off =>
      a_answer_loop data (256 * data.get ⟨6, by omega⟩ + data.get ⟨7, by omega⟩) off fuel
    | .nofind => .nofind
    | .panic => .panic
    | .diverge => .diverge

/-- The four cache variables of `query_service` (src/mdns.rs:71-75): at most
one pending SRV/A correlation. -/
structure Cache where
  hostname : Option (List Nat)
  port : Option Nat
  ip : Option IpV4
  time : Option Nat
deriving DecidableEq

/-- The initial cache state: all four variables `None`. -/
def emptyCache : Cache := ⟨none, none, none, none⟩

/-- The eviction step of `parse_with_state` (src/mdns.rs:138-148): when a
cached timestamp exists and the saturating age exceeds 30000 ms, all four
cache variables are cleared. -/
def evict (current_time : Nat) (st : Cache) : Cache :=
  match st.time with
  | some ts => if 30000 < current_time - ts then emptyCache else st
  | none => st

/-- The caching tail of the A-record branch (src/mdns.rs:203-209): store the
address and set the timestamp only if it is not already set. -/
def cacheA (current_time : Nat) (aip : IpV4) (st : Cache) : Cache :=
  { st with
    ip := some aip,
    time := (match st.time with | none => some current_time | some ts => some ts) }

/-- The A-record half of `parse_with_state` (src/mdns.rs:181-210): if an A
record is found and its hostname equals the cached SRV hostname, resolution
completes with the cached port; otherwise the address is cached (and the
timestamp set if absent) and the bundled-parse fallback result is returned. -/
def a_step (data : Bytes) (current_time : Nat) (st : Cache) (fuel : Nat)
    (fallback : IpV4 × Nat) : Res ((IpV4 × Nat) × Cache) :=
  match parse_a_record data fuel with
  | .val ha =>
    match st.hostname, st.port with
    | some ch, some cp =>
      if ha.1 = ch then .val ((ha.2, cp), st)
      else .val (fallback, cacheA current_time ha.2 st)
    | _, _ => .val (fallback, cacheA current_time ha.2 st)
  | .nofind => .val (fallback, st)
  | .panic => .panic
  | .diverge => .diverge

/-- `parse_with_state` (src/mdns.rs:127-214).  `qparse` stands for the bundled
single-packet parser `MdnsQuery::parse_mdns_query` of the external
`esp_hal_mdns` crate (modelled as an arbitrary function to an (address, port)
attempt); the cache logic around it is translated from the source.  Returns
the (address, port) result together with the updated cache. -/
def parse_with_state (qparse : Bytes → IpV4 × Nat) (data : Bytes) (current_time : Nat)
    (st0 : Cache) (fuel : Nat) : Res ((IpV4 × Nat) × Cache) :=
  let st := evict current_time st0
  let r := qparse data
  if r.2 ≠ 0 ∧ r.1 ≠ (0, 0, 0, 0) then .val (r, st)
  else
    match parse_srv_record data fuel with
    | .val sp =>
      match st.ip with
      | some cip => .val ((cip, sp.2), st)
      | none =>
        a_step data current_time
          { st with hostname := some sp.1, port := some sp.2, time := some current_time }
          fuel r
    | .nofind => a_step data current_time st fuel r
    | .panic => .panic
    | .diverge => .diverge

/-- Feeding two packets through `parse_with_state` in order, starting from the
empty cache, and reporting the (address, port) produced for the second. -/
def processTwo (qparse : Bytes → IpV4 × Nat) (d1 : Bytes) (t1 : Nat) (d2 : Bytes)
    (t2 fuel : Nat) : Option (IpV4 × Nat) :=
  match parse_with_state qparse d1 t1 emptyCache fuel with
  | .val r1 =>
    match parse_with_state qparse d2 t2 r1.2 fuel with
    | .val r2 => some r2.1
    | _ => none
  | _ => none

/-- The receive loop of `query_service` (src/mdns.rs:77-123) over a finite
list of received datagrams with their arrival times: each datagram is fed to
`parse_with_state`, and the loop returns exactly when the produced port and
address are both non-zero.  An exhausted list models the loop still waiting. -/
def query_loop (qparse : Bytes → IpV4 × Nat) (pkts : List (Bytes × Nat)) (st : Cache)
    (fuel : Nat) : Option (IpV4 × Nat) :=
  match pkts with
  | [] => none
  | pkt :: rest =>
    match parse_with_state qparse pkt.1 pkt.2 st fuel with
    | .val r =>
      if r.1.2 ≠ 0 ∧ r.1.1 ≠ (0, 0, 0, 0) then some r.1
      else query_loop qparse rest r.2 fuel
    | _ => none

/-- Big-endian 16-bit read used in statements about the record scan
(`u16::from_be_bytes` in the source). -/
def be16 (data : Bytes) (i : Nat) : Nat := 256 * data.getD i 0 + data.getD (i + 1) 0

/-- `parse_dns_name` at this position exhausts every iteration budget: the
embedded loop never leaves the compression-pointer chase. -/
def divergesAt (data : Bytes) (offset : Nat) : Prop :=
  ∀ fuel, parse_dns_name data offset fuel = .diverge

/-- Every compression pointer in the buffer targets an offset strictly below
its own position (the structural shape of well-formed DNS compression). -/
def goodPointers (data : Bytes) : Prop :=
  ∀ i, i < data.length → data.getD i 0 &&& 0xC0 = 0xC0 →
    ((data.getD i 0 &&& 0x3F) <<< 8) ||| data.getD (i + 1) 0 < i

/-- A response datagram carrying a single SRV answer: target hostname the
single label consisting of char 97, port 1883, no questions. -/
def srvPkt : Bytes :=
  [0, 0, 0, 0, 0, 0, 0, 1, 0, 0, 0, 0,
   0, 0, 33, 0, 1, 0, 0, 0, 0, 0, 9,
   0, 0, 0, 0, 7, 91, 1, 97, 0]

/-- A response datagram carrying a single A answer: hostname the single label
consisting of char 97, address 192.168.1.10, no questions. -/
def aPktA : Bytes :=
  [0, 0, 0, 0, 0, 0, 0, 1, 0, 0, 0, 0,
   1, 97, 0, 0, 1, 0, 1, 0, 0, 0, 0, 0, 4, 192, 168, 1, 10]

/-- The same A answer but for the distinct hostname consisting of char 98. -/
def aPktB : Bytes :=
  [0, 0, 0, 0, 0, 0, 0, 1, 0, 0, 0, 0,
   1, 98, 0, 0, 1, 0, 1, 0, 0, 0, 0, 0, 4, 192, 168, 1, 10]

/-- A bundled single-packet parser that never fully resolves, as is the case
for any packet holding only one of the two needed records. -/
def qparse0 : Bytes → IpV4 × Nat := fun _ => ((0, 0, 0, 0), 0)

theorem getD_lt (l : Bytes) (i : Nat) (h : i < l.length) : l.getD i 0 = l.get ⟨i, h⟩ := by
  simp [List.getD_eq_getElem?_getD, List.getElem?_eq_getElem h, List.get_eq_getElem]

theorem pushLabelChars_ne_panic (data : Bytes) :
    ∀ n start s, start + n ≤ data.length → pushLabelChars data start n s ≠ .panic := by
  intro n
  induction n with
  | zero => intro start s hb; simp [pushLabelChars]
  | succ m ih =>
    intro start s hb
    simp only [pushLabelChars]
    split
    · split
      · exact ih (start + 1) _ (by omega)
      · simp
    · omega

theorem pushLabelChars_ne_diverge (data : Bytes) :
    ∀ n start s, pushLabelChars data start n s ≠ .diverge := by
  intro n
  induction n with
  | zero => intro start s; simp [pushLabelChars]
  | succ m ih =>
    intro start s
    simp only [pushLabelChars]
    split
    · split
      · exact ih (start + 1) _
      · simp
    · simp

theorem skip_go_ne_panic (data : Bytes) : ∀ k offset, skip_go data k offset ≠ .panic := by
  intro k
  induction k with
  | zero => intro offset; simp [skip_go]
  | succ j ih =>
    intro offset
    simp only [skip_go]
    split
    · split
      · simp
      · split
        · simp
        · exact ih _
    · simp

theorem skip_dns_name_ne_panic (data : Bytes) (offset : Nat) :
    skip_dns_name data offset ≠ .panic :=
  skip_go_ne_panic data _ offset

theorem parse_dns_name_loop_ne_panic (data : Bytes) :
    ∀ fuel offset result first, parse_dns_name_loop data fuel offset result first ≠ .panic := by
  intro fuel
  induction fuel with
  | zero => intro offset result first; simp [parse_dns_name_loop]
  | succ f ih =>
    intro offset result first
    simp only [parse_dns_name_loop]
    split
    case isTrue h =>
      split
      · simp
      · split
        · split
          · exact ih _ _ _
          · simp
        · split
          · simp
          · split
            case isTrue => simp
            case isFalse hb =>
              split
              case h_1 r2 heq => exact ih _ _ _
              case h_2 e heq =>
                exact pushLabelChars_ne_panic data _ _ _ (by omega)
    case isFalse => simp

theorem parse_dns_name_ne_panic (data : Bytes) (offset fuel : Nat) :
    parse_dns_name data offset fuel ≠ .panic := by
  simp only [parse_dns_name]
  split
  · split
    · simp
    · simp
  · exact parse_dns_name_loop_ne_panic data fuel offset [] true

theorem skip_questions_ne_panic (data : Bytes) :
    ∀ count offset, skip_questions data count offset ≠ .panic := by
  intro count
  induction count with
  | zero => intro offset; simp [skip_questions]
  | succ n ih =>
    intro offset
    simp only [skip_questions]
    split
    · exact ih _
    · exact skip_dns_name_ne_panic data offset

theorem parse_srv_rdata_ne_panic (data : Bytes) (offset rdlength fuel : Nat) :
    parse_srv_rdata data offset rdlength fuel ≠ .panic := by
  simp only [parse_srv_rdata]
  split
  · simp
  · split
    · simp
    · simp
    · exact fun hcon => parse_dns_name_ne_panic data _ fuel (by assumption)
    · simp

theorem srv_answer_loop_ne_panic (data : Bytes) (fuel : Nat) :
    ∀ count offset, srv_answer_loop data count offset fuel ≠ .panic := by
  intro count
  induction count with
  | zero => intro offset; simp [srv_answer_loop]
  | succ n ih =>
    intro offset
    simp only [srv_answer_loop]
    split
    case h_1 o heq =>
      split
      · simp
      · split
        · exact parse_srv_rdata_ne_panic data _ _ fuel
        · exact ih _
    case h_2 => simp
    case h_3 heq =>
      exact fun hcon => skip_dns_name_ne_panic data offset heq
    case h_4 => simp

theorem parse_srv_record_ne_panic (data : Bytes) (fuel : Nat) :
    parse_srv_record data fuel ≠ .panic := by
  simp only [parse_srv_record]
  split
  · simp
  · split
    · exact srv_answer_loop_ne_panic data fuel _ _
    · simp
    · exact fun hcon => skip_questions_ne_panic data _ 12 (by assumption)
    · simp

theorem a_answer_loop_ne_panic (data : Bytes) (fuel : Nat) :
    ∀ count offset, a_answer_loop data count offset fuel ≠ .panic := by
  intro count
  induction count with
  | zero => intro offset; simp [a_answer_loop]
  | succ n ih =>
    intro offset
    simp only [a_answer_loop]
    split
    case h_1 hostname heq =>
      split
      case h_1 o heq2 =>
        split
        · simp
        · split
          · split
            · simp
            · exact ih _
          · exact ih _
      case h_2 => simp
      case h_3 heq2 => exact fun hcon => skip_dns_name_ne_panic data offset heq2
      case h_4 => simp
    case h_2 => simp
    case h_3 heq => exact fun hcon => parse_dns_name_ne_panic data offset fuel heq
    case h_4 => simp

theorem parse_a_record_ne_panic (data : Bytes) (fuel : Nat) :
    parse_a_record data fuel ≠ .panic := by
  simp only [parse_a_record]
  split
  · simp
  · split
    · exact a_answer_loop_ne_panic data fuel _ _
    · simp
    · exact fun hcon => skip_questions_ne_panic data _ 12 (by assumption)
    · simp

/-- Claim C2: for every input byte buffer (hence also every truncation of a
valid message), `parse_srv_record`, `parse_a_record`, `parse_dns_name` and
`skip_dns_name` never index past the end of the buffer (never reach the
embedded `panic` outcome), and a name whose length byte claims more bytes than
remain in the buffer makes `parse_dns_name` fail soft with `nofind`. -/
theorem C2_decoders_fail_soft (data : Bytes) (offset fuel : Nat) :
    skip_dns_name data offset ≠ .panic ∧
    parse_dns_name data offset fuel ≠ .panic ∧
    parse_srv_record data fuel ≠ .panic ∧
    parse_a_record data fuel ≠ .panic ∧
    (∀ L, offset < data.length → data.getD offset 0 = L → L ≠ 0 → L &&& 0xC0 ≠ 0xC0 →
      data.length < offset + 1 + L → 0 < fuel → parse_dns_name data offset fuel = .nofind) := by
  refine ⟨skip_dns_name_ne_panic data offset, parse_dns_name_ne_panic data offset fuel,
    parse_srv_record_ne_panic data fuel, parse_a_record_ne_panic data fuel, ?_⟩
  intro L hofs hL hne hnp hlen hf
  obtain ⟨f, rfl⟩ : ∃ f, fuel = f + 1 := ⟨fuel - 1, by omega⟩
  have hget : data.get ⟨offset, hofs⟩ = L := by rw [← getD_lt data offset hofs]; exact hL
  simp only [parse_dns_name, parse_dns_name_loop]
  rw [dif_pos hofs]
  rw [hget, if_neg hne, if_neg hnp]
  simp [hlen]

/-- Witness for C2: the buffer consisting of the bytes 3 and 97 is truncated
mid-name (the length byte claims three bytes where one remains) and the name
parse fails soft. -/
theorem C2_witness : parse_dns_name [3, 97] 0 1 = .nofind :=
  (C2_decoders_fail_soft [3, 97] 0 1).2.2.2.2 3 (by decide) (by decide) (by decide)
    (by decide) (by decide) (by decide)

theorem pointer_self_loop_diverges :
    ∀ f : Nat, parse_dns_name_loop [192, 0] f 0 [] true = .diverge := by
  intro f
  induction f with
  | zero => rfl
  | succ n ih =>
    rw [show parse_dns_name_loop [192, 0] (n + 1) 0 [] true
        = parse_dns_name_loop [192, 0] n 0 [] true from rfl]
    exact ih

/-- Counterexample to claim C3: the two-byte buffer consisting of 192 and 0 is
a compression pointer whose 14-bit target is its own offset 0, and
`parse_dns_name` started there loops forever (exhausts every iteration
budget), so name parsing does not terminate for every input buffer and
starting offset. -/
theorem C3_counterexample : divergesAt [192, 0] 0 := by
  intro fuel
  simp only [parse_dns_name, pointer_self_loop_diverges]

theorem charUtf8Len_pos (c : Nat) : 1 ≤ charUtf8Len c := by
  unfold charUtf8Len; split <;> omega

theorem pushChar_strBytes {s : List Nat} {c : Nat} {s2 : List Nat}
    (h : pushChar s c = some s2) :
    strBytes s2 = strBytes s + charUtf8Len c ∧ strBytes s2 ≤ 64 := by
  unfold pushChar at h
  split at h
  case isTrue hle =>
    obtain rfl : s ++ [c] = s2 := by injection h
    constructor
    · simp [strBytes]
    · simpa [strBytes] using hle
  case isFalse => exact absurd h (by simp)

theorem pushLabelChars_strBytes (data : Bytes) :
    ∀ n start s s2, pushLabelChars data start n s = .val s2 →
      strBytes s + n ≤ strBytes s2 ∧ strBytes s2 ≤ max (strBytes s) 64 := by
  intro n
  induction n with
  | zero =>
    intro start s s2 h
    obtain rfl : s = s2 := by injection h
    exact ⟨Nat.le_refl _, Nat.le_max_left _ _⟩
  | succ m ih =>
    intro start s s2 h
    simp only [pushLabelChars] at h
    split at h
    case isTrue hin =>
      split at h
      case h_1 s1 heq =>
        obtain ⟨hs1, hs1le⟩ := pushChar_strBytes heq
        obtain ⟨ih1, ih2⟩ := ih (start + 1) s1 s2 h
        have hc := charUtf8Len_pos (data.get ⟨start, hin⟩)
        constructor
        · omega
        · have : max (strBytes s1) 64 = 64 := by omega
          omega
      case h_2 => exact absurd h (by simp)
    case isFalse => exact absurd h (by simp)

theorem parse_dns_name_loop_term (data : Bytes) (hgp : goodPointers data) :
    ∀ fuel offset result first, strBytes result ≤ 64 →
      (65 - strBytes result) * (data.length + 1) + offset < fuel →
      parse_dns_name_loop data fuel offset result first ≠ .diverge := by
  intro fuel
  induction fuel with
  | zero => intro offset result first hs hm; omega
  | succ f ih =>
    intro offset result first hs hm
    simp only [parse_dns_name_loop]
    split
    case isTrue h =>
      split
      case isTrue => simp
      case isFalse hz =>
        split
        case isTrue hc =>
          split
          case isTrue h2 =>
            have hp : ((data.get ⟨offset, h⟩ &&& 0x3F) <<< 8) ||| data.get ⟨offset + 1, h2⟩
                < offset := by
              have := hgp offset h (by rw [getD_lt data offset h]; exact hc)
              rwa [getD_lt data offset h, getD_lt data (offset + 1) h2] at this
            exact ih _ result first hs (by omega)
          case isFalse => simp
        case isFalse hc =>
          split
          case h_1 => simp
          case h_2 r1 heq =>
            split
            case isTrue => simp
            case isFalse hb =>
              split
              case h_1 r2 heq2 =>
                have hlen1 : 1 ≤ data.get ⟨offset, h⟩ := by omega
                have hr1 : strBytes result ≤ strBytes r1 ∧ strBytes r1 ≤ 64 := by
                  cases first with
                  | true =>
                    obtain rfl : result = r1 := by simpa using heq
                    exact ⟨Nat.le_refl _, hs⟩
                  | false =>
                    simp only [Bool.false_eq_true, if_false] at heq
                    obtain ⟨he, hle⟩ := pushChar_strBytes heq
                    have := charUtf8Len_pos 46
                    omega
                obtain ⟨hpl1, hpl2⟩ := pushLabelChars_strBytes data _ _ _ _ heq2
                have hr2a : strBytes result + 1 ≤ strBytes r2 := by omega
                have hr2b : strBytes r2 ≤ 64 := by omega
                have hkey : (65 - strBytes r2 + 1) * (data.length + 1)
                    ≤ (65 - strBytes result) * (data.length + 1) :=
                  Nat.mul_le_mul_right _ (by omega)
                rw [Nat.add_one_mul] at hkey
                exact ih _ r2 false hr2b (by omega)
              case h_2 e heq2 => exact pushLabelChars_ne_diverge data _ _ _
    case isFalse => simp

theorem parse_dns_name_loop_val_le (data : Bytes) :
    ∀ fuel offset result first r, strBytes result ≤ 64 →
      parse_dns_name_loop data fuel offset result first = .val r → strBytes r ≤ 64 := by
  intro fuel
  induction fuel with
  | zero => intro offset result first r hs h; exact absurd h (by simp [parse_dns_name_loop])
  | succ f ih =>
    intro offset result first r hs h
    simp only [parse_dns_name_loop] at h
    split at h
    case isTrue hin =>
      split at h
      case isTrue => obtain rfl : result = r := by injection h
                     exact hs
      case isFalse hz =>
        split at h
        case isTrue hc =>
          split at h
          case isTrue h2 => exact ih _ result first r hs h
          case isFalse => exact absurd h (by simp)
        case isFalse hc =>
          split at h
          case h_1 => exact absurd h (by simp)
          case h_2 r1 heq =>
            split at h
            case isTrue => exact absurd h (by simp)
            case isFalse hb =>
              split at h
              case h_1 r2 heq2 =>
                have hr1 : strBytes r1 ≤ 64 := by
                  cases first with
                  | true =>
                    obtain rfl : result = r1 := by simpa using heq
                    exact hs
                  | false =>
                    simp only [Bool.false_eq_true, if_false] at heq
                    exact (pushChar_strBytes heq).2
                obtain ⟨hpl1, hpl2⟩ := pushLabelChars_strBytes data _ _ _ _ heq2
                exact ih _ r2 false r (by omega) h
              case h_2 e heq2 => exact absurd h (heq2 r)
    case isFalse => exact absurd h (by simp)

instance goodPointersDecidable (data : Bytes) : Decidable (goodPointers data) := by
  unfold goodPointers
  infer_instance

/-- Claim C3 (amended): for every input buffer whose compression pointers all
target strictly earlier offsets — the structural shape of well-formed DNS
compression, without which the pointer chase of the source loops forever — and
for every starting offset, name parsing terminates (a budget of
66 * (buffer length + 2) + offset iterations is never exhausted), and any
successfully parsed name occupies at most the 64-byte output capacity, copies
beyond which fail soft inside `pushChar`. -/
theorem C3_name_parse_terminates (data : Bytes) (offset : Nat) (hgp : goodPointers data) :
    parse_dns_name data offset (66 * (data.length + 2) + offset) ≠ .diverge ∧
    (∀ fuel r, parse_dns_name data offset fuel = .val r → strBytes r ≤ 64) := by
  have hmeas : (65 - strBytes []) * (data.length + 1) + offset
      < 66 * (data.length + 2) + offset := by
    simp only [strBytes, List.map_nil, List.sum_nil, Nat.sub_zero]
    omega
  constructor
  · have hterm := parse_dns_name_loop_term data hgp (66 * (data.length + 2) + offset) offset
        [] true (by simp [strBytes]) hmeas
    simp only [parse_dns_name]
    split
    case h_1 r heq => split <;> simp
    case h_2 e heq => exact hterm
  · intro fuel r hval
    simp only [parse_dns_name] at hval
    split at hval
    case h_1 r0 heq =>
      split at hval
      · exact absurd hval (by simp)
      · obtain rfl : r0 = r := by injection hval
        exact parse_dns_name_loop_val_le data fuel offset [] true r0 (by simp [strBytes]) heq
    case h_2 e heq => exact absurd hval (heq r)

/-- Witness for C3 (amended): a buffer holding one literal label (no
compression pointers at all) satisfies the pointer condition and its name
parse does not exhaust the stated budget. -/
theorem C3_witness :
    parse_dns_name [1, 97, 0] 0 (66 * (List.length [1, 97, 0] + 2) + 0) ≠ Res.diverge :=
  (C3_name_parse_terminates [1, 97, 0] 0 (by decide)).1

/-- Claim C4: on every invocation of the cache correlation step, a cache
entry whose timestamp is more than 30000 ms old is fully cleared before the
cache is consulted or updated: the step behaves exactly as if it had started
from the empty cache, so no resolution can complete from the stale data. -/
theorem C4_stale_cache_evicted (qparse : Bytes → IpV4 × Nat) (data : Bytes)
    (t : Nat) (st : Cache) (fuel ts : Nat)
    (hts : st.time = some ts) (hold : 30000 < t - ts) :
    parse_with_state qparse data t st fuel = parse_with_state qparse data t emptyCache fuel := by
  have h1 : evict t st = emptyCache := by simp [evict, hts, hold]
  have h2 : evict t emptyCache = emptyCache := rfl
  simp only [parse_with_state, h1, h2]

/-- Witness for C4: with an SRV correlation cached at time 0, a packet
processed at time 40000 is handled exactly as from the empty cache. -/
theorem C4_witness :
    parse_with_state qparse0 srvPkt 40000 ⟨some [97], some 1883, none, some 0⟩ 50
      = parse_with_state qparse0 srvPkt 40000 emptyCache 50 :=
  C4_stale_cache_evicted qparse0 srvPkt 40000 ⟨some [97], some 1883, none, some 0⟩ 50 0
    rfl (by decide)

theorem srv_then_a (qparse : Bytes → IpV4 × Nat) (d1 d2 : Bytes) (t1 t2 fuel : Nat)
    (host : List Nat) (p : Nat) (a : IpV4)
    (h1s : parse_srv_record d1 fuel = .val (host, p))
    (h1a : parse_a_record d1 fuel = .nofind)
    (h2s : parse_srv_record d2 fuel = .nofind)
    (h2a : parse_a_record d2 fuel = .val (host, a))
    (hq1 : ¬((qparse d1).2 ≠ 0 ∧ (qparse d1).1 ≠ (0, 0, 0, 0)))
    (hq2 : ¬((qparse d2).2 ≠ 0 ∧ (qparse d2).1 ≠ (0, 0, 0, 0)))
    (ht : t2 - t1 ≤ 30000) :
    processTwo qparse d1 t1 d2 t2 fuel = some (a, p) := by
  have hte : ¬(30000 < t2 - t1) := by omega
  have hc1 : parse_with_state qparse d1 t1 emptyCache fuel
      = .val (qparse d1, (⟨some host, some p, none, some t1⟩ : Cache)) := by
    simp only [parse_with_state, evict, emptyCache, a_step, h1s, h1a, if_neg hq1]
  have hc2 : parse_with_state qparse d2 t2 (⟨some host, some p, none, some t1⟩ : Cache) fuel
      = .val ((a, p), (⟨some host, some p, none, some t1⟩ : Cache)) := by
    simp only [parse_with_state, evict, a_step, h2s, h2a, if_neg hq2, if_neg hte]
    simp
  simp only [processTwo, hc1, hc2]

theorem a_then_srv (qparse : Bytes → IpV4 × Nat) (d1 d2 : Bytes) (t1 t2 fuel : Nat)
    (host : List Nat) (p : Nat) (a : IpV4)
    (h1s : parse_srv_record d1 fuel = .val (host, p))
    (h2s : parse_srv_record d2 fuel = .nofind)
    (h2a : parse_a_record d2 fuel = .val (host, a))
    (hq1 : ¬((qparse d1).2 ≠ 0 ∧ (qparse d1).1 ≠ (0, 0, 0, 0)))
    (hq2 : ¬((qparse d2).2 ≠ 0 ∧ (qparse d2).1 ≠ (0, 0, 0, 0)))
    (ht : t2 - t1 ≤ 30000) :
    processTwo qparse d2 t1 d1 t2 fuel = some (a, p) := by
  have hte : ¬(30000 < t2 - t1) := by omega
  have hc1 : parse_with_state qparse d2 t1 emptyCache fuel
      = .val (qparse d2, (⟨none, none, some a, some t1⟩ : Cache)) := by
    simp only [parse_with_state, evict, emptyCache, a_step, h2s, h2a, if_neg hq2, cacheA]
  have hc2 : parse_with_state qparse d1 t2 (⟨none, none, some a, some t1⟩ : Cache) fuel
      = .val ((a, p), (⟨none, none, some a, some t1⟩ : Cache)) := by
    simp only [parse_with_state, evict, h1s, if_neg hq1, if_neg hte]
  simp only [processTwo, hc1, hc2]

/-- Counterexample to claim C1: an SRV-only packet for the hostname consisting
of char 97 and an A-only packet for the distinct hostname consisting of char
98, delivered within the eviction window, do not converge to the same final
result in the two orders.  SRV-first leaves the resolution incomplete (the A
hostname fails the match against the cached SRV hostname), while A-first
completes with the cached address because the SRV branch of
`parse_with_state` consumes a cached address without any hostname check. -/
theorem C1_counterexample :
    processTwo qparse0 srvPkt 0 aPktB 1000 50 ≠ processTwo qparse0 aPktB 0 srvPkt 1000 50 := by
  decide

/-- Claim C1 (amended): for every SRV record (target hostname h, port p) and
every A record for the SAME hostname h with address a, presented to the
resolution cache within the 30000 ms eviction window, the SRV-first and
A-first orders both converge to the same final resolved pair (a, p).  (The
packets are characterised by what the record extractors find in them; the
bundled single-packet parse is assumed incomplete, as it is for single-record
packets.) -/
theorem C1_order_independence (qparse : Bytes → IpV4 × Nat) (d1 d2 : Bytes)
    (t1 t2 fuel : Nat) (host : List Nat) (p : Nat) (a : IpV4)
    (h1s : parse_srv_record d1 fuel = .val (host, p))
    (h1a : parse_a_record d1 fuel = .nofind)
    (h2s : parse_srv_record d2 fuel = .nofind)
    (h2a : parse_a_record d2 fuel = .val (host, a))
    (hq1 : ¬((qparse d1).2 ≠ 0 ∧ (qparse d1).1 ≠ (0, 0, 0, 0)))
    (hq2 : ¬((qparse d2).2 ≠ 0 ∧ (qparse d2).1 ≠ (0, 0, 0, 0)))
    (ht : t2 - t1 ≤ 30000) :
    processTwo qparse d1 t1 d2 t2 fuel = some (a, p) ∧
    processTwo qparse d2 t1 d1 t2 fuel = some (a, p) :=
  ⟨srv_then_a qparse d1 d2 t1 t2 fuel host p a h1s h1a h2s h2a hq1 hq2 ht,
   a_then_srv qparse d1 d2 t1 t2 fuel host p a h1s h2s h2a hq1 hq2 ht⟩

/-- Witness for C1 (amended): the SRV packet for hostname char-97 port 1883
and the A packet for the same hostname with address 192.168.1.10 resolve to
(192.168.1.10, 1883) in both delivery orders. -/
theorem C1_witness :
    processTwo qparse0 srvPkt 0 aPktA 1000 50 = some ((192, 168, 1, 10), 1883) ∧
    processTwo qparse0 aPktA 0 srvPkt 1000 50 = some ((192, 168, 1, 10), 1883) :=
  C1_order_independence qparse0 srvPkt aPktA 0 1000 50 [97] 1883 (192, 168, 1, 10)
    (by decide) (by decide) (by decide) (by decide) (by decide) (by decide) (by decide)

/-- Claim C5: an SRV-only packet (target hostname h, port p) followed within
the eviction window by an A-only packet mapping the same hostname h to
address a makes the cache correlation step return exactly the pair (a, p). -/
theorem C5_srv_first_correlation (qparse : Bytes → IpV4 × Nat) (d1 d2 : Bytes)
    (t1 t2 fuel : Nat) (host : List Nat) (p : Nat) (a : IpV4)
    (h1s : parse_srv_record d1 fuel = .val (host, p))
    (h1a : parse_a_record d1 fuel = .nofind)
    (h2s : parse_srv_record d2 fuel = .nofind)
    (h2a : parse_a_record d2 fuel = .val (host, a))
    (hq1 : ¬((qparse d1).2 ≠ 0 ∧ (qparse d1).1 ≠ (0, 0, 0, 0)))
    (hq2 : ¬((qparse d2).2 ≠ 0 ∧ (qparse d2).1 ≠ (0, 0, 0, 0)))
    (ht : t2 - t1 ≤ 30000) :
    processTwo qparse d1 t1 d2 t2 fuel = some (a, p) :=
  srv_then_a qparse d1 d2 t1 t2 fuel host p a h1s h1a h2s h2a hq1 hq2 ht

/-- Witness for C5: the concrete SRV-then-A delivery at times 0 and 500. -/
theorem C5_witness :
    processTwo qparse0 srvPkt 0 aPktA 500 60 = some ((192, 168, 1, 10), 1883) :=
  C5_srv_first_correlation qparse0 srvPkt aPktA 0 500 60 [97] 1883 (192, 168, 1, 10)
    (by decide) (by decide) (by decide) (by decide) (by decide) (by decide) (by decide)

/-- Claim C7: over any finite sequence of received packets, the resolver
receive loop returns a pair only when its port is non-zero and its address is
non-zero, so the sentinel (0.0.0.0, 0) is never the final answer; by the shape
of `query_loop`, producing such a pair is the only way the loop stops with a
result (otherwise it keeps waiting). -/
theorem C7_resolver_returns_nonzero (qparse : Bytes → IpV4 × Nat) :
    ∀ (pkts : List (Bytes × Nat)) (st : Cache) (fuel : Nat) (ip : IpV4) (port : Nat),
      query_loop qparse pkts st fuel = some (ip, port) → port ≠ 0 ∧ ip ≠ (0, 0, 0, 0) := by
  intro pkts
  induction pkts with
  | nil => intro st fuel ip port h; exact absurd h (by simp [query_loop])
  | cons pkt rest ih =>
    intro st fuel ip port h
    simp only [query_loop] at h
    split at h
    case h_1 r heq =>
      split at h
      case isTrue hg =>
        have hr : r.1 = (ip, port) := by injection h
        rw [hr] at hg
        simpa using hg
      case isFalse => exact ih _ fuel ip port h
    case h_2 => exact absurd h (by simp)

/-- Witness for C7: a run in which the SRV and matching A packet arrive in
order terminates the loop with the non-zero pair (192.168.1.10, 1883). -/
theorem C7_witness : (1883 : Nat) ≠ 0 ∧ ((192, 168, 1, 10) : IpV4) ≠ (0, 0, 0, 0) :=
  C7_resolver_returns_nonzero qparse0 [(srvPkt, 0), (aPktA, 1000)] emptyCache 50
    (192, 168, 1, 10) 1883 (by decide)

/-- `heapless::String::push_str` onto a string of capacity `cap`: appends the
bytes when the capacity allows it and errs otherwise, never truncating. -/
def push_str (cap : Nat) (s t : List Nat) : Option (List Nat) :=
  if s.length + t.length ≤ cap then some (s ++ t) else none

/-- `MqttMessage` (src/mqtt.rs:45-48): topic bounded by MAX_TOPIC = 64 bytes,
content bounded by MAX_PAYLOAD = 512 bytes. -/
structure MqttMessage where
  topic : List Nat
  content : List Nat
deriving DecidableEq

/-- `MqttMessage::new` (src/mqtt.rs:51-60): build both bounded strings from
empty via `push_str`; if either push errs the constructor yields `None`. -/
def MqttMessage.new (mqtt_topic mqtt_message_content : List Nat) : Option MqttMessage :=
  match push_str 64 [] mqtt_topic, push_str 512 [] mqtt_message_content with
  | some t, some c => some ⟨t, c⟩
  | _, _ => none

/-- Claim C6: `MqttMessage::new` returns no value exactly when the topic
exceeds 64 bytes or the payload exceeds 512 bytes, and otherwise returns a
message holding both inputs unchanged — no silent truncation. -/
theorem C6_message_bounds (t c : List Nat) :
    (MqttMessage.new t c = none ↔ 64 < t.length ∨ 512 < c.length) ∧
    (t.length ≤ 64 → c.length ≤ 512 → MqttMessage.new t c = some ⟨t, c⟩) := by
  simp only [MqttMessage.new, push_str, List.nil_append, List.length_nil, Nat.zero_add]
  split_ifs with h1 h2 h3
  · exact ⟨by simp; omega, fun _ _ => rfl⟩
  · exact ⟨by simp; omega, fun _ hc => absurd hc h2⟩
  · exact ⟨by simp; omega, fun ht _ => absurd ht h1⟩
  · exact ⟨by simp; omega, fun ht _ => absurd ht h1⟩

/-- Witness for C6: a 65-byte topic is rejected; a small message is stored
unchanged. -/
theorem C6_witness :
    MqttMessage.new (List.replicate 65 0) [] = none ∧
    MqttMessage.new [97] [98] = some ⟨[97], [98]⟩ :=
  ⟨(C6_message_bounds (List.replicate 65 0) []).1.mpr (by simp),
   (C6_message_bounds [97] [98]).2 (by decide) (by decide)⟩

/-- Modelled from the spec: the two mailboxes are values of
`embassy_sync::channel::Channel` with capacity 5 (src/mqtt.rs:73-74), a crate
outside this repository.  Spec section 4.4: enqueue is non-blocking and the
new message is dropped when the queue is at capacity, the existing entries
being unaffected; the boolean reports acceptance (`try_send(..).is_err()`). -/
def Channel.try_send (cap : Nat) (q : List MqttMessage) (m : MqttMessage) :
    List MqttMessage × Bool :=
  if q.length < cap then (q ++ [m], true) else (q, false)

/-- Modelled from the spec: non-blocking dequeue returns the oldest entry of
the FIFO mailbox, or nothing when it is empty. -/
def Channel.try_receive (q : List MqttMessage) : Option (MqttMessage × List MqttMessage) :=
  match q with
  | [] => none
  | m :: rest => some (m, rest)

/-- `send_message` (src/mqtt.rs:85-94): non-blocking `try_send` into the
capacity-5 OUTBOUND mailbox; on a full queue the message is dropped with only
a warning. -/
def send_message (q : List MqttMessage) (m : MqttMessage) : List MqttMessage × Bool :=
  Channel.try_send 5 q m

/-- Enqueue a list of messages in order through `send_message`. -/
def enqueueAll (q : List MqttMessage) (ms : List MqttMessage) : List MqttMessage :=
  ms.foldl (fun st m => (send_message st m).1) q

/-- Dequeue up to `n` entries by repeated `try_receive`. -/
def drainN : Nat → List MqttMessage → List MqttMessage
  | 0, _ => []
  | n + 1, q =>
    match Channel.try_receive q with
    | none => []
    | some mr => mr.1 :: drainN n mr.2

/-- Dequeue every entry of the mailbox in FIFO order. -/
def drain (q : List MqttMessage) : List MqttMessage := drainN q.length q

/-- Claim C8: enqueuing six messages into the empty capacity-5 mailbox keeps
exactly the first five; the sixth enqueue reports a drop and leaves the five
existing entries untouched; dequeuing then returns the first five messages
unchanged in FIFO insertion order. -/
theorem C8_mailbox_drop_on_full (m1 m2 m3 m4 m5 m6 : MqttMessage) :
    enqueueAll [] [m1, m2, m3, m4, m5, m6] = [m1, m2, m3, m4, m5] ∧
    send_message [m1, m2, m3, m4, m5] m6 = ([m1, m2, m3, m4, m5], false) ∧
    drain (enqueueAll [] [m1, m2, m3, m4, m5, m6]) = [m1, m2, m3, m4, m5] :=
  ⟨rfl, rfl, rfl⟩

/-- `MqttFacadeConfig` (src/mqtt.rs:21-27). -/
structure MqttFacadeConfig where
  broker_ip : IpV4
  broker_port : Nat
  client_id : List Nat
  topic_id : List Nat
deriving DecidableEq

/-- `MqttFacadeConfig::new` (src/mqtt.rs:30-40):
`topic.push_str(topic_id).expect("Topic too long")` panics when the 64-byte
capacity would be exceeded; otherwise the inputs are stored unchanged. -/
def MqttFacadeConfig.new (broker_ip : IpV4) (broker_port : Nat)
    (client_id topic_id : List Nat) : Res MqttFacadeConfig :=
  match push_str 64 [] topic_id with
  | some t => .val ⟨broker_ip, broker_port, client_id, t⟩
  | none => .panic

/-- Claim C10: `MqttFacadeConfig::new` succeeds and stores the topic unchanged
whenever it is at most 64 bytes, and panics (rather than failing soft the way
`MqttMessage::new` does) for any longer topic. -/
theorem C10_config_panics_on_long_topic (ip : IpV4) (port : Nat)
    (cid topic_id : List Nat) :
    (topic_id.length ≤ 64 →
      MqttFacadeConfig.new ip port cid topic_id = .val ⟨ip, port, cid, topic_id⟩) ∧
    (64 < topic_id.length → MqttFacadeConfig.new ip port cid topic_id = .panic) := by
  simp only [MqttFacadeConfig.new, push_str, List.nil_append, List.length_nil, Nat.zero_add]
  split_ifs with h1
  · exact ⟨fun _ => rfl, fun hl => by omega⟩
  · exact ⟨fun hl => by omega, fun _ => rfl⟩

/-- Witness for C10: a one-byte topic is stored unchanged; a 65-byte topic
panics the constructor. -/
theorem C10_witness :
    MqttFacadeConfig.new (0, 0, 0, 0) 1883 [99] [97]
      = .val ⟨(0, 0, 0, 0), 1883, [99], [97]⟩ ∧
    MqttFacadeConfig.new (0, 0, 0, 0) 1883 [99] (List.replicate 65 97) = .panic :=
  ⟨(C10_config_panics_on_long_topic (0, 0, 0, 0) 1883 [99] [97]).1 (by decide),
   (C10_config_panics_on_long_topic (0, 0, 0, 0) 1883 [99] (List.replicate 65 97)).2 (by simp)⟩

/-- Claim C9: the whole-message record scan rejects packets shorter than the
12-byte header, skips the questions counted in the header (bytes 4-5) starting
right after the header at offset 12, then scans the answers counted at header
bytes 6-7 in order: the SRV scan returns at the first type-33 record and
rejects an SRV RDLENGTH below 6 with no value, the A scan returns hostname and
address of the first type-1 record with RDLENGTH 4, and both scans skip any
other record by its RDLENGTH. -/
theorem C9_record_scan (data : Bytes) (fuel count offset o : Nat) (hn : List Nat) :
    (∀ off2 rdl, rdl < 6 → parse_srv_rdata data off2 rdl fuel = .nofind) ∧
    (data.length < 12 →
      parse_srv_record data fuel = .nofind ∧ parse_a_record data fuel = .nofind) ∧
    (12 ≤ data.length →
      parse_srv_record data fuel
        = Res.bind (skip_questions data (be16 data 4) 12)
            (fun off => srv_answer_loop data (be16 data 6) off fuel) ∧
      parse_a_record data fuel
        = Res.bind (skip_questions data (be16 data 4) 12)
            (fun off => a_answer_loop data (be16 data 6) off fuel)) ∧
    (skip_dns_name data offset = .val o → o + 10 ≤ data.length →
      ((be16 data o = 33 →
        srv_answer_loop data (count + 1) offset fuel
          = parse_srv_rdata data (o + 10) (be16 data (o + 8)) fuel) ∧
      (be16 data o ≠ 33 →
        srv_answer_loop data (count + 1) offset fuel
          = srv_answer_loop data count (o + 10 + be16 data (o + 8)) fuel))) ∧
    (parse_dns_name data offset fuel = .val hn → skip_dns_name data offset = .val o →
      o + 10 ≤ data.length →
      ((be16 data o = 1 → be16 data (o + 8) = 4 → o + 14 ≤ data.length →
        a_answer_loop data (count + 1) offset fuel
          = .val (hn, (data.getD (o + 10) 0, data.getD (o + 11) 0,
                       data.getD (o + 12) 0, data.getD (o + 13) 0))) ∧
      (¬(be16 data o = 1 ∧ be16 data (o + 8) = 4) →
        a_answer_loop data (count + 1) offset fuel
          = a_answer_loop data count (o + 10 + be16 data (o + 8)) fuel))) := by
  refine ⟨?_, ?_, ?_, ?_, ?_⟩
  · intro off2 rdl hr
    simp only [parse_srv_rdata]
    rw [dif_pos (Or.inl hr)]
  · intro hshort
    constructor
    · simp only [parse_srv_record]
      rw [dif_pos hshort]
    · simp only [parse_a_record]
      rw [dif_pos hshort]
  · intro h12
    constructor
    · simp only [parse_srv_record]
      rw [dif_neg (by omega : ¬ data.length < 12)]
      rw [← getD_lt data 4 (by omega), ← getD_lt data 5 (by omega),
          ← getD_lt data 6 (by omega), ← getD_lt data 7 (by omega)]
      simp only [be16]
      cases hsq : skip_questions data (256 * data.getD 4 0 + data.getD 5 0) 12 <;>
        simp [Res.bind]
    · simp only [parse_a_record]
      rw [dif_neg (by omega : ¬ data.length < 12)]
      rw [← getD_lt data 4 (by omega), ← getD_lt data 5 (by omega),
          ← getD_lt data 6 (by omega), ← getD_lt data 7 (by omega)]
      simp only [be16]
      cases hsq : skip_questions data (256 * data.getD 4 0 + data.getD 5 0) 12 <;>
        simp [Res.bind]
  · intro hsk hb
    have h10 : ¬ data.length < o + 10 := by omega
    constructor
    · intro h33
      simp only [be16] at h33
      simp only [srv_answer_loop, hsk]
      rw [dif_neg h10]
      rw [← getD_lt data o (by omega), ← getD_lt data (o + 1) (by omega),
          ← getD_lt data (o + 8) (by omega), ← getD_lt data (o + 9) (by omega)]
      rw [if_pos h33]
      simp only [be16]
    · intro h33
      simp only [be16] at h33
      simp only [srv_answer_loop, hsk]
      rw [dif_neg h10]
      rw [← getD_lt data o (by omega), ← getD_lt data (o + 1) (by omega),
          ← getD_lt data (o + 8) (by omega), ← getD_lt data (o + 9) (by omega)]
      rw [if_neg h33]
      simp only [be16]
  · intro hpn hsk hb
    have h10 : ¬ data.length < o + 10 := by omega
    constructor
    · intro h1 h4 h14
      simp only [be16] at h1 h4
      have h4b : 256 * data.getD (o + 8) 0 + data.getD (o + 9) 0 = 4 := h4
      simp only [a_answer_loop, hpn, hsk]
      rw [dif_neg h10]
      rw [← getD_lt data o (by omega), ← getD_lt data (o + 1) (by omega),
          ← getD_lt data (o + 8) (by omega), ← getD_lt data (o + 9) (by omega)]
      rw [if_pos ⟨h1, h4b⟩]
      rw [dif_pos (by omega : o + 10 + 4 ≤ data.length)]
      rw [← getD_lt data (o + 10) (by omega), ← getD_lt data (o + 11) (by omega),
          ← getD_lt data (o + 12) (by omega), ← getD_lt data (o + 13) (by omega)]
    · intro hno
      simp only [be16] at hno
      simp only [a_answer_loop, hpn, hsk]
      rw [dif_neg h10]
      rw [← getD_lt data o (by omega), ← getD_lt data (o + 1) (by omega),
          ← getD_lt data (o + 8) (by omega), ← getD_lt data (o + 9) (by omega)]
      rw [if_neg hno]
      simp only [be16]

/-- Witness for C9: in the concrete SRV packet, the first answer record sits
at offset 12, its name ends at offset 13, its TYPE is 33, and the scan returns
the RDATA parse at offset 23 with the RDLENGTH read at offset 21. -/
theorem C9_witness :
    srv_answer_loop srvPkt 1 12 5 = parse_srv_rdata srvPkt 23 (be16 srvPkt 21) 5 :=
  ((C9_record_scan srvPkt 5 0 12 13 []).2.2.2.1 (by decide) (by decide)).1 (by decide)
